import Mathlib

/-!
Verification of the caption layout and filter-graph synthesis engine of the
`caption-it` repository (`src/index.js`, final variant, plus `bin/cli.js`).

JavaScript strings are modelled as `List Char`; JavaScript numbers are
modelled as `ℚ`/`ℤ`/`ℕ` where the code only performs exact arithmetic, and as
`ℝ` for the square-root/power scale-factor computation (float rounding is out
of scope of this model).  Fallible code is modelled with `Except`.
-/

namespace CaptionIt

/-- A JavaScript string, modelled as its list of characters. -/
abbrev JStr := List Char

/-- `str.split(" ")` from `wrapTextToFile` (src/index.js:8) and
`calculateTextHeight` (src/index.js:165): split on every single space,
keeping empty segments, one (possibly empty) segment when no space occurs. -/
def splitOnSpace : JStr → List JStr
  | [] => [[]]
  | c :: cs =>
    match splitOnSpace cs with
    | [] => [[]]
    | w :: ws => if c = ' ' then [] :: w :: ws else (c :: w) :: ws

/-- JavaScript `String.prototype.trim`: drop whitespace from both ends
(used as `line.trim()` in src/index.js:14 and 19). -/
def jsTrim (s : JStr) : JStr :=
  ((s.dropWhile Char.isWhitespace).reverse.dropWhile Char.isWhitespace).reverse

/-- The greedy wrapping loop of `wrapTextToFile` (src/index.js:12-19), with the
emitted lines kept as a list: state `line` is the accumulating current line;
when `(line + word).length > maxLen` the trimmed current line is closed and
`line` restarts empty before `line += word + " "` runs; after the loop the
final trimmed line is closed. -/
def wrapAux (maxLen : ℕ) (line : JStr) : List JStr → List JStr
  | [] => [jsTrim line]
  | w :: ws =>
    if maxLen < (line ++ w).length then
      jsTrim line :: wrapAux maxLen (w ++ [' ']) ws
    else
      wrapAux maxLen (line ++ w ++ [' ']) ws

/-- The ordered sequence of lines produced by `wrapTextToFile` for a text. -/
def wrap (text : JStr) (maxLen : ℕ) : List JStr :=
  wrapAux maxLen [] (splitOnSpace text)

/-- Direct transcription of the `result` string built by `wrapTextToFile`
(src/index.js:7-19): each closed line is appended as `line.trim() + "\n"`, the
final line as `line.trim()`.  This is the content written to the temp file. -/
def wrapContentAux (maxLen : ℕ) (result line : JStr) : List JStr → JStr
  | [] => result ++ jsTrim line
  | w :: ws =>
    if maxLen < (line ++ w).length then
      wrapContentAux maxLen (result ++ jsTrim line ++ ['\n']) (w ++ [' ']) ws
    else
      wrapContentAux maxLen result (line ++ w ++ [' ']) ws

/-- Content of the temp file created by `wrapTextToFile(str, maxLen)`. -/
def wrapTextContent (text : JStr) (maxLen : ℕ) : JStr :=
  wrapContentAux maxLen [] [] (splitOnSpace text)

/-- The greedy line counter inside `calculateTextHeight` (src/index.js:165-176):
starts at 1, increments on every close, with the same accumulation of
`line` as `wrapTextToFile`. -/
def lineCountAux (wrapLen : ℕ) (line : JStr) (count : ℕ) : List JStr → ℕ
  | [] => count
  | w :: ws =>
    if wrapLen < (line ++ w).length then
      lineCountAux wrapLen (w ++ [' ']) (count + 1) ws
    else
      lineCountAux wrapLen (line ++ w ++ [' ']) count ws

/-- Number of lines `calculateTextHeight` attributes to `text` at `wrapLen`. -/
def lineCount (text : JStr) (wrapLen : ℕ) : ℕ :=
  lineCountAux wrapLen [] 1 (splitOnSpace text)

/-- `calculateTextHeight(text, wrapLen, styleConfig)` (src/index.js:164-182):
`fontsize * lineCount + line_spacing * max(0, lineCount - 1)`. -/
def calculateTextHeight (text : JStr) (wrapLen : ℕ) (fontsize line_spacing : ℤ) : ℤ :=
  fontsize * (lineCount text wrapLen : ℤ) +
    line_spacing * max 0 ((lineCount text wrapLen : ℤ) - 1)

/-- A word as produced by splitting printable text: nonempty, no whitespace. -/
def GoodWord (w : JStr) : Prop := w ≠ [] ∧ ∀ c ∈ w, c.isWhitespace = false

instance decidableGoodWord (w : JStr) : Decidable (GoodWord w) :=
  inferInstanceAs (Decidable (w ≠ [] ∧ ∀ c ∈ w, c.isWhitespace = false))

/-- The accumulating `line` of the wrapping loop, for the group of words
currently on the open line: every word followed by one space. -/
def lineOf (g : List JStr) : JStr := (g.map (fun w => w ++ [' '])).flatten

/-- JavaScript `Math.round`: round half up, i.e. `floor(x + 0.5)`. -/
noncomputable def jsRound (x : ℝ) : ℤ := ⌊x + 1 / 2⌋

/-- `calculateScaledFontSize(videoWidth, videoHeight, baseStyle)`
(src/index.js:53-80).  The `referenceResolutions` table maps `gif` to
1920×1080 and `tiktok` to 1080×1920 with `gif` as fallback for unknown names;
since the `tiktok` branch returns `1.0` before using its reference, every
other name uses the `gif` reference area `1920*1080`.  Float arithmetic is
modelled over `ℝ` (`Math.sqrt` as `Real.sqrt`, `Math.pow(b, 1.5)` as real
rpow). -/
noncomputable def calculateScaledFontSize
    (videoWidth videoHeight : ℕ) (baseStyle : String) : ℝ :=
  if baseStyle = "tiktok" then 1.0
  else
    let videoArea : ℝ := (videoWidth : ℝ) * (videoHeight : ℝ)
    let referenceArea : ℝ := 1920 * 1080
    let areaRatio : ℝ := videoArea / referenceArea
    let scaleFactor : ℝ := Real.sqrt areaRatio
    let minDimension : ℕ := min videoWidth videoHeight
    let scaleFactor2 : ℝ :=
      if minDimension < 700 then
        scaleFactor * ((minDimension : ℝ) / 700) ^ (1.5 : ℝ)
      else scaleFactor
    max 0.3 (min scaleFactor2 3.0)

/-- Modelled from the spec's words (§4.2 `scaleFactor`, top-overlay branch):
`areaRatio = (videoWidth*videoHeight)/(1920*1080)`; `factor = sqrt(areaRatio)`;
if `min(videoWidth, videoHeight) < 700` then
`factor *= (min(videoWidth,videoHeight)/700)^1.5`; clamp the final factor to
`[0.3, 3.0]`. -/
noncomputable def spec_scaleFactor (videoWidth videoHeight : ℕ) : ℝ :=
  let areaRatio : ℝ := ((videoWidth : ℝ) * (videoHeight : ℝ)) / (1920 * 1080)
  let factor : ℝ := Real.sqrt areaRatio
  let factor2 : ℝ :=
    if min videoWidth videoHeight < 700 then
      factor * (((min videoWidth videoHeight : ℕ) : ℝ) / 700) ^ (1.5 : ℝ)
    else factor
  min (max factor2 0.3) 3.0

/-- `calculateWrapLength(videoWidth, fontSize, padding = 40)`
(src/index.js:83-88): `charWidth = fontSize * 0.6`;
`usableWidth = videoWidth - padding * 2`;
`maxCharsPerLine = floor(usableWidth / charWidth)`; then
`max(15, min(maxCharsPerLine, 80))`.  Exact over `ℚ` (0.6 = 3/5). -/
def calculateWrapLength (videoWidth fontSize padding : ℚ) : ℤ :=
  let charWidth : ℚ := fontSize * 0.6
  let usableWidth : ℚ := videoWidth - padding * 2
  let maxCharsPerLine : ℤ := ⌊usableWidth / charWidth⌋
  max 15 (min maxCharsPerLine 80)

/-- Modelled from the spec's words (§4.2 `wrapLength`): estimate average glyph
width as `0.6 × fontSize`; `usable = videoWidth - 2×padding`;
`chars = floor(usable / charWidth)`; clamp to `[15, 80]`. -/
def spec_wrapLength (videoWidth fontSize padding : ℚ) : ℤ :=
  let charWidth : ℚ := 0.6 * fontSize
  let usable : ℚ := videoWidth - 2 * padding
  let chars : ℤ := ⌊usable / charWidth⌋
  min (max chars 15) 80

/-- A base style of the catalog (`this.baseStyles`, src/index.js:93-115).
Fields absent from a style's object literal are `none`. -/
structure BaseStyle where
  baseFontsize : ℤ
  fontcolor : String
  borderw : ℤ
  bordercolor : String
  line_spacing : ℤ
  textPadding : Option ℤ
  backgroundColor : Option String
  box : Bool
  boxcolor : Option String
  boxborderw : Option ℤ
  x : Option String
  y : Option String
deriving DecidableEq

/-- The `gif` base style (src/index.js:94-102). -/
def gifBase : BaseStyle :=
  { baseFontsize := 124
    fontcolor := "white"
    borderw := 6
    bordercolor := "black@0.95"
    line_spacing := 30
    textPadding := some 40
    backgroundColor := some "black"
    box := false
    boxcolor := none
    boxborderw := none
    x := none
    y := none }

/-- The `tiktok` base style (src/index.js:103-114). -/
def tiktokBase : BaseStyle :=
  { baseFontsize := 48
    fontcolor := "white"
    borderw := 0
    bordercolor := "black"
    line_spacing := 10
    textPadding := none
    backgroundColor := none
    box := true
    boxcolor := some "black@0.6"
    boxborderw := some 10
    x := some "(w-text_w)/2"
    y := some "(h-text_h)/2" }

/-- `this.baseStyles[styleName]` lookup. -/
def baseStyles (styleName : String) : Option BaseStyle :=
  if styleName = "gif" then some gifBase
  else if styleName = "tiktok" then some tiktokBase
  else none

/-- The error taxonomy surfaced by the engine and the CLI glue. -/
inductive CaptionError where
  | unknownStyle (name : String)
  | inputNotFound (path : String)
deriving DecidableEq

/-- A scaled style as built by `getScaledStyle` (src/index.js:135-158): the
spread copy of the base style plus the scaled fields.  JavaScript's falsy
check `baseStyle.textPadding ? ... : undefined` (and likewise `boxborderw`)
makes an absent or zero base value scale to `undefined`. -/
structure ScaledStyle where
  baseFontsize : ℤ
  fontcolor : String
  bordercolor : String
  backgroundColor : Option String
  box : Bool
  boxcolor : Option String
  x : Option String
  y : Option String
  fontsize : ℤ
  borderw : ℤ
  line_spacing : ℤ
  textPadding : Option ℤ
  boxborderw : Option ℤ
deriving DecidableEq

/-- `getScaledStyle(styleName, videoWidth, videoHeight)` (src/index.js:119-161):
throws `Unknown style` for a name outside the catalog, otherwise scales the
base style by `calculateScaledFontSize`. -/
noncomputable def getScaledStyle
    (styleName : String) (videoWidth videoHeight : ℕ) :
    Except CaptionError ScaledStyle :=
  match baseStyles styleName with
  | none => .error (.unknownStyle styleName)
  | some baseStyle =>
    let scaleFactor : ℝ := calculateScaledFontSize videoWidth videoHeight styleName
    .ok
      { baseFontsize := baseStyle.baseFontsize
        fontcolor := baseStyle.fontcolor
        bordercolor := baseStyle.bordercolor
        backgroundColor := baseStyle.backgroundColor
        box := baseStyle.box
        boxcolor := baseStyle.boxcolor
        x := baseStyle.x
        y := baseStyle.y
        fontsize := jsRound ((baseStyle.baseFontsize : ℝ) * scaleFactor)
        borderw := max 1 (jsRound ((baseStyle.borderw : ℝ) * scaleFactor * 0.7))
        line_spacing := jsRound ((baseStyle.line_spacing : ℝ) * scaleFactor)
        textPadding :=
          match baseStyle.textPadding with
          | some p => if p = 0 then none else some (jsRound ((p : ℝ) * scaleFactor))
          | none => none
        boxborderw :=
          match baseStyle.boxborderw with
          | some q => if q = 0 then none
            else some (max 2 (jsRound ((q : ℝ) * scaleFactor * 0.8)))
          | none => none }

/-- `getStyleConfig(styleName, videoWidth = 1920, videoHeight = 1080)`
(src/index.js:735-737): delegates directly to `getScaledStyle`, including its
throw on unknown names. -/
noncomputable def getStyleConfig
    (styleName : String) (videoWidth videoHeight : ℕ) :
    Except CaptionError ScaledStyle :=
  getScaledStyle styleName videoWidth videoHeight

/-- The `gif` style scaled at exactly 1920×1080, where the scale factor is 1:
fontsize 124, border width `max(1, round(6*0.7)) = 4`, line spacing 30,
text padding 40. -/
def gifScaled1080 : ScaledStyle :=
  { baseFontsize := 124
    fontcolor := "white"
    bordercolor := "black@0.95"
    backgroundColor := some "black"
    box := false
    boxcolor := none
    x := none
    y := none
    fontsize := 124
    borderw := 4
    line_spacing := 30
    textPadding := some 40
    boxborderw := none }

/-- A caption entry of the multi-caption mode (JSON
`{text, startTime, endTime}`).  Times are JavaScript numbers, modelled as
integers. -/
structure Caption where
  text : JStr
  startTime : ℤ
  endTime : ℤ
deriving DecidableEq

/-- The per-caption visibility predicate
`between(t,${caption.startTime},${caption.endTime})` (src/index.js:549). -/
def enableCondition (c : Caption) : String :=
  "between(t," ++ toString c.startTime ++ "," ++ toString c.endTime ++ ")"

/-- Whether `p` is a prefix of `s` (filter-primitive recognizer support). -/
def strHasPrefix (p s : String) : Bool := p.data.isPrefixOf s.data

/-- Whether `sub` occurs contiguously inside `s`. -/
def containsStr (sub s : String) : Bool := decide (sub.data <:+: s.data)

/-- Recognizes a canvas-expand primitive (`pad=...`). -/
def isPadFilterStr (s : String) : Bool := strHasPrefix "pad=" s

/-- Recognizes a text-draw primitive (`drawtext=...`). -/
def isDrawtextFilterStr (s : String) : Bool := strHasPrefix "drawtext=" s

/-- Path of the `i`-th temporary caption text file of a request.  `tmp.fileSync`
generates nondeterministic fresh names; the model names resources by creation
index. -/
def tmpPath (i : ℕ) : String := "captionTmp" ++ toString i ++ ".txt"

/-- `captions.map(caption => ({...caption, file: wrapTextToFile(...)}))`
(src/index.js:533-536): each caption paired with its freshly created temp
file, in input order, numbering the fresh names from `n`. -/
def mkCaptionFiles (n : ℕ) : List Caption → List (Caption × String)
  | [] => []
  | c :: cs => (c, tmpPath n) :: mkCaptionFiles (n + 1) cs

/-- `Math.max(...captions.map(c => calculateTextHeight(...)))`
(src/index.js:525-529).  `Math.max()` of an empty list is `-Infinity`, which
has no `ℤ` counterpart; the multi-caption claims are stated for nonempty
caption lists, where the fold below is the exact maximum. -/
def maxTextHeightOf (captions : List Caption) (sc : ScaledStyle) (wrapLen : ℕ) : ℤ :=
  match captions.map (fun c =>
      calculateTextHeight c.text wrapLen sc.fontsize sc.line_spacing) with
  | [] => 0
  | h :: t => t.foldl max h

/-- `textAreaHeight = maxTextHeight + styleConfig.textPadding * 2`
(src/index.js:530).  The gif style always defines `textPadding`; `getD 0`
stands in for the undefined case that the gif path never hits. -/
def textAreaHeightOf (captions : List Caption) (sc : ScaledStyle) (wrapLen : ℕ) : ℤ :=
  maxTextHeightOf captions sc wrapLen + sc.textPadding.getD 0 * 2

/-- The canvas-expand primitive
`pad=iw:ih+${textAreaHeight}:0:${textAreaHeight}:color=${backgroundColor}`
(src/index.js:544). -/
def padFilter (textAreaHeight : ℤ) (backgroundColor : String) : String :=
  "pad=iw:ih+" ++ toString textAreaHeight ++ ":0:" ++ toString textAreaHeight ++
    ":color=" ++ backgroundColor

/-- The shared vertical-centering expression
`(${textAreaHeight}-text_h)/2` (src/index.js:540). -/
def gifTextY (textAreaHeight : ℤ) : String :=
  "(" ++ toString textAreaHeight ++ "-text_h)/2"

/-- The part of the per-caption drawtext template before the `y=` key
(src/index.js:552-555): textfile, fontsize, fontcolor and the constant
horizontal-centering `x`. -/
def gifDrawtextPre (file : String) (sc : ScaledStyle) : String :=
  "drawtext=textfile='" ++ file ++ "':" ++
  "fontsize=" ++ toString sc.fontsize ++ ":" ++
  "fontcolor=" ++ sc.fontcolor ++ ":" ++
  "x=(w-text_w)/2:"

/-- The part of the drawtext template between `y=` and `enable=`
(src/index.js:557-559). -/
def gifDrawtextPost (sc : ScaledStyle) : String :=
  "line_spacing=" ++ toString sc.line_spacing ++ ":" ++
  "borderw=" ++ toString sc.borderw ++ ":" ++
  "bordercolor=" ++ sc.bordercolor ++ ":"

/-- `:fontfile='${fontfile}'` appended when a custom font is supplied and
exists on disk (src/index.js:562-564); the `Option` argument stands for
"supplied and existing". -/
def fontfileSuffix : Option String → String
  | some f => ":fontfile='" ++ f ++ "'"
  | none => ""

/-- One per-caption text-draw primitive of the multi-caption gif path
(src/index.js:548-566), concatenated in the source's key order. -/
def gifDrawtextFilter (file : String) (sc : ScaledStyle) (textAreaHeight : ℤ)
    (c : Caption) (fontfile : Option String) : String :=
  gifDrawtextPre file sc ++
    ("y=" ++ gifTextY textAreaHeight ++ ":") ++
    gifDrawtextPost sc ++
    ("enable='" ++ enableCondition c ++ "'") ++
    fontfileSuffix fontfile

/-- Observable outcome of a multi-caption synthesis: the contents of the
created temporary text resources (in creation order) and the ordered filter
expressions handed to the renderer. -/
structure MultiRun where
  resources : List JStr
  filters : List String
deriving DecidableEq

/-- `addMultipleGifStyleCaptions` (src/index.js:515-567) up to the renderer
boundary: compute the shared band height, create one temp text resource per
caption, and synthesize `pad` followed by one gated `drawtext` per caption. -/
def addMultipleGifStyleCaptionsRun (captions : List Caption)
    (styleConfig : ScaledStyle) (wrapLen : ℕ) (fontfile : Option String) :
    MultiRun :=
  let textAreaHeight := textAreaHeightOf captions styleConfig wrapLen
  let captionFiles := mkCaptionFiles 0 captions
  { resources := captionFiles.map fun cf => wrapTextContent cf.1.text wrapLen
    filters :=
      padFilter textAreaHeight (styleConfig.backgroundColor.getD "undefined") ::
        captionFiles.map fun cf =>
          gifDrawtextFilter cf.2 styleConfig textAreaHeight cf.1 fontfile }

/-- Error surfaced by the CLI glue for malformed caption batches. -/
inductive CliError where
  | invalidCaption
deriving DecidableEq

/-- The per-entry check of the `add-multiple` CLI action (bin/cli.js:73-77):
`!caption.text` rejects an empty (or missing) text; `startTime`/`endTime`
need only be numbers, which the field types already guarantee.  No relation
between `startTime` and `endTime` is checked anywhere. -/
def captionEntryValid (c : Caption) : Bool := !c.text.isEmpty

/-- The CLI validation loop over the parsed caption array (bin/cli.js:73-77). -/
def validateCaptionsCli (captions : List Caption) : Bool :=
  captions.all captionEntryValid

/-- The `add-multiple` CLI action for the gif style (bin/cli.js:57-92),
up to the renderer: validation first, then `addMultipleCaptions` dispatches
to the gif synthesis.  Input-existence, style lookup and geometry probing are
external steps that reject no caption; `styleConfig` and `wrapLen`, computed
from the probed geometry, enter as parameters. -/
def cliAddMultipleGif (captions : List Caption) (styleConfig : ScaledStyle)
    (wrapLen : ℕ) : Except CliError MultiRun :=
  if validateCaptionsCli captions then
    .ok (addMultipleGifStyleCaptionsRun captions styleConfig wrapLen none)
  else
    .error .invalidCaption

/-- Observable events of a render span, in order. -/
inductive RenderEvent where
  | createdTemp (file : String)
  | renderInvoked
  | deletedTemp (file : String)
  | warnedUndeleted (file : String)
deriving DecidableEq

/-- The `try { fs.unlinkSync(captionFile) } catch (e) { console.warn(...) }`
block shared by every `end` and `error` handler (src/index.js:334-341,
346-353, 425-432, 437-444, 597-606, 612-621): a failed delete only logs a
warning. -/
def cleanupTempFile (deleteFails : String → Bool) (file : String) : RenderEvent :=
  if deleteFails file then .warnedUndeleted file else .deletedTemp file

/-- Trace and outcome of one render span. -/
structure RenderRun where
  events : List RenderEvent
  outcome : Except String String

/-- The render promise of `addGifStyleCaption` / `addTiktokStyleCaption`
(src/index.js:300-357 and 395-448; the two handlers are textually identical):
the temp caption file was created beforehand by `addCaption`; on `end` the
cleanup block runs and the promise resolves with the output path; on `error`
the same cleanup block runs and the promise rejects with the render error. -/
def singleCaptionRender (outputPath captionFile : String)
    (renderError : Option String) (deleteFails : String → Bool) : RenderRun :=
  let pre := [RenderEvent.createdTemp captionFile, RenderEvent.renderInvoked]
  match renderError with
  | none =>
    { events := pre ++ [cleanupTempFile deleteFails captionFile]
      outcome := .ok outputPath }
  | some e =>
    { events := pre ++ [cleanupTempFile deleteFails captionFile]
      outcome := .error e }

/-- The render promise of `addMultipleGifStyleCaptions` /
`addMultipleTiktokStyleCaptions` (src/index.js:569-625 and 673-728; identical
handlers): all temp caption files are created before the render; both the
`end` and the `error` handler loop the cleanup block over every file. -/
def multiCaptionsRender (outputPath : String) (captionFiles : List String)
    (renderError : Option String) (deleteFails : String → Bool) : RenderRun :=
  let pre := captionFiles.map RenderEvent.createdTemp ++ [RenderEvent.renderInvoked]
  match renderError with
  | none =>
    { events := pre ++ captionFiles.map (cleanupTempFile deleteFails)
      outcome := .ok outputPath }
  | some e =>
    { events := pre ++ captionFiles.map (cleanupTempFile deleteFails)
      outcome := .error e }

/-- A release of `file` was attempted during the run: it was deleted, or its
failed deletion was logged as a warning. -/
def releaseAttempted (r : RenderRun) (file : String) : Prop :=
  RenderEvent.deletedTemp file ∈ r.events ∨
    RenderEvent.warnedUndeleted file ∈ r.events

/-- The transcoding command assembled by `addCaption`'s style paths. -/
structure FfmpegCommand where
  inputPath : String
  videoFilters : List String
  outputPath : String
  seekInput : Option ℚ
  duration : Option ℚ
deriving DecidableEq

/-- JavaScript truthiness of an optional number (`if (duration)`):
`undefined` and `0` are falsy. -/
def jsTruthyNum : Option ℚ → Bool
  | none => false
  | some x => x != 0

/-- Command assembly shared by `addGifStyleCaption` (src/index.js:300-311) and
`addTiktokStyleCaption` (src/index.js:395-406): the input, filters and output
are always set; `seekInput(startTime)` is applied only when `startTime > 0`;
`duration(duration)` only when `duration` is truthy. -/
def buildCaptionCommand (inputPath outputPath : String)
    (videoFilters : List String) (startTime : ℚ) (duration : Option ℚ) :
    FfmpegCommand :=
  let command : FfmpegCommand :=
    { inputPath := inputPath
      videoFilters := videoFilters
      outputPath := outputPath
      seekInput := none
      duration := none }
  let command :=
    if 0 < startTime then { command with seekInput := some startTime }
    else command
  if jsTruthyNum duration then { command with duration := duration }
  else command

end CaptionIt

namespace CaptionIt

theorem splitOnSpace_ne_nil (s : JStr) : splitOnSpace s ≠ [] := by
  cases s with
  | nil => simp [splitOnSpace]
  | cons c cs =>
    rcases h : splitOnSpace cs with _ | ⟨w, ws⟩
    · simp [splitOnSpace, h]
    · simp only [splitOnSpace, h]
      split <;> simp

theorem wrapAux_ne_nil (maxLen : ℕ) (line : JStr) (ws : List JStr) :
    wrapAux maxLen line ws ≠ [] := by
  induction ws generalizing line with
  | nil => simp [wrapAux]
  | cons w ws ih =>
    simp only [wrapAux]
    split
    · simp
    · exact ih _

/-- The count-only loop agrees with the materializing loop on the number of
emitted lines, whatever the starting state. -/
theorem lineCountAux_eq_length (wrapLen : ℕ) (ws : List JStr) :
    ∀ (line : JStr) (count : ℕ),
      lineCountAux wrapLen line count ws + 1 = count + (wrapAux wrapLen line ws).length := by
  induction ws with
  | nil => intro line count; simp [lineCountAux, wrapAux]
  | cons w ws ih =>
    intro line count
    simp only [lineCountAux, wrapAux]
    split
    · rw [ih]; simp [List.length_cons]; omega
    · exact ih _ _

/-- Claim C1: for every text string and every `maxLineChars` value, the line
count computed by `calculateTextHeight`'s greedy counter equals the number of
lines produced by the materializing wrapper `wrapTextToFile` for the same
`(text, maxLineChars)` pair. -/
theorem lineCount_eq_wrap_length (text : JStr) (maxLineChars : ℕ) :
    lineCount text maxLineChars = (wrap text maxLineChars).length := by
  have h := lineCountAux_eq_length maxLineChars (splitOnSpace text) [] 1
  unfold lineCount wrap
  omega

theorem intercalate_singleton (sep a : JStr) : List.intercalate sep [a] = a := by
  simp [List.intercalate]

theorem intercalate_cons_of_ne_nil (sep a : JStr) (l : List JStr) (h : l ≠ []) :
    List.intercalate sep (a :: l) = a ++ sep ++ List.intercalate sep l := by
  cases l with
  | nil => exact absurd rfl h
  | cons b t => simp [List.intercalate, List.intersperse]

/-- The `result` string accumulated by `wrapTextToFile` is exactly the
newline-intercalation of the emitted lines. -/
theorem wrapContentAux_eq (maxLen : ℕ) (ws : List JStr) :
    ∀ (result line : JStr),
      wrapContentAux maxLen result line ws =
        result ++ List.intercalate ['\n'] (wrapAux maxLen line ws) := by
  induction ws with
  | nil => intro result line; simp [wrapContentAux, wrapAux, intercalate_singleton]
  | cons w ws ih =>
    intro result line
    simp only [wrapContentAux, wrapAux]
    split
    · rw [ih, intercalate_cons_of_ne_nil _ _ _ (wrapAux_ne_nil _ _ _)]
      simp
    · exact ih _ _

/-- The temp-file content is the newline-intercalation of the wrapped lines. -/
theorem wrapTextContent_eq (text : JStr) (maxLen : ℕ) :
    wrapTextContent text maxLen = List.intercalate ['\n'] (wrap text maxLen) := by
  simpa using wrapContentAux_eq maxLen (splitOnSpace text) [] []

/-- Splitting on spaces and rejoining with single spaces is the identity:
`splitOnSpace` keeps empty segments, so no information is lost. -/
theorem intercalate_splitOnSpace (s : JStr) :
    List.intercalate [' '] (splitOnSpace s) = s := by
  induction s with
  | nil => simp [splitOnSpace, intercalate_singleton]
  | cons c cs ih =>
    rcases h : splitOnSpace cs with _ | ⟨w, ws⟩
    · exact absurd h (splitOnSpace_ne_nil cs)
    · rw [h] at ih
      simp only [splitOnSpace, h]
      by_cases hc : c = ' '
      · subst hc
        rw [if_pos rfl, intercalate_cons_of_ne_nil _ _ _ (by simp), ih]
        simp
      · rw [if_neg hc]
        cases ws with
        | nil =>
          rw [intercalate_singleton] at ih ⊢
          simp [ih]
        | cons b t =>
          rw [intercalate_cons_of_ne_nil _ _ _ (by simp)] at ih ⊢
          simp only [← ih]
          simp

theorem lineOf_singleton (w : JStr) : lineOf [w] = w ++ [' '] := by
  simp [lineOf]

theorem lineOf_append_one (g : List JStr) (w : JStr) :
    lineOf (g ++ [w]) = lineOf g ++ (w ++ [' ']) := by
  simp [lineOf]

theorem lineOf_eq_intercalate (g : List JStr) (hg : g ≠ []) :
    lineOf g = List.intercalate [' '] g ++ [' '] := by
  induction g with
  | nil => exact absurd rfl hg
  | cons a r ih =>
    cases r with
    | nil => simp [lineOf, intercalate_singleton]
    | cons b t =>
      rw [intercalate_cons_of_ne_nil _ _ _ (by simp)]
      have : lineOf (a :: b :: t) = (a ++ [' ']) ++ lineOf (b :: t) := by simp [lineOf]
      rw [this, ih (by simp)]
      simp

theorem intercalate_head_not_ws (g : List JStr) (hg : g ≠ [])
    (hw : ∀ w ∈ g, GoodWord w) :
    ∃ c rest, List.intercalate [' '] g = c :: rest ∧ c.isWhitespace = false := by
  cases g with
  | nil => exact absurd rfl hg
  | cons a r =>
    obtain ⟨ha, hca⟩ := hw a (by simp)
    cases a with
    | nil => exact absurd rfl ha
    | cons c a' =>
      cases r with
      | nil =>
        exact ⟨c, a', by rw [intercalate_singleton], hca c (by simp)⟩
      | cons b t =>
        refine ⟨c, a' ++ [' '] ++ List.intercalate [' '] (b :: t), ?_, hca c (by simp)⟩
        rw [intercalate_cons_of_ne_nil _ _ _ (by simp)]
        simp

theorem intercalate_reverse_head_not_ws (g : List JStr) (hg : g ≠ [])
    (hw : ∀ w ∈ g, GoodWord w) :
    ∃ c rest, (List.intercalate [' '] g).reverse = c :: rest ∧ c.isWhitespace = false := by
  induction g with
  | nil => exact absurd rfl hg
  | cons a r ih =>
    cases r with
    | nil =>
      obtain ⟨ha, hca⟩ := hw a (by simp)
      rw [intercalate_singleton]
      cases h : a.reverse with
      | nil => exact absurd (by simpa using congrArg List.reverse h) ha
      | cons c rest =>
        refine ⟨c, rest, rfl, hca c ?_⟩
        have : c ∈ a.reverse := by rw [h]; simp
        simpa using this
    | cons b t =>
      obtain ⟨c, rest, hrev, hc⟩ := ih (by simp) (fun w hwm => hw w (by simp [hwm]))
      refine ⟨c, rest ++ (' ' :: a.reverse), ?_, hc⟩
      rw [intercalate_cons_of_ne_nil _ _ _ (by simp)]
      simp [hrev]

theorem intercalate_ne_nil_of_good (g : List JStr) (hg : g ≠ [])
    (hw : ∀ w ∈ g, GoodWord w) :
    List.intercalate [' '] g ≠ [] := by
  obtain ⟨c, rest, h, -⟩ := intercalate_head_not_ws g hg hw
  simp [h]

/-- Trimming the open line of a group of good words yields exactly the words
rejoined with single spaces. -/
theorem jsTrim_lineOf (g : List JStr) (hg : g ≠ []) (hw : ∀ w ∈ g, GoodWord w) :
    jsTrim (lineOf g) = List.intercalate [' '] g := by
  rw [lineOf_eq_intercalate g hg]
  obtain ⟨c, rest, hhead, hc⟩ := intercalate_head_not_ws g hg hw
  obtain ⟨c', rest', hrev, hc'⟩ := intercalate_reverse_head_not_ws g hg hw
  unfold jsTrim
  have h1 : List.dropWhile Char.isWhitespace (List.intercalate [' '] g ++ [' ']) =
      List.intercalate [' '] g ++ [' '] := by
    rw [hhead]
    simp only [List.cons_append, List.dropWhile_cons, hc]
    simp
  rw [h1]
  have h2 : (List.intercalate [' '] g ++ [' ']).reverse =
      ' ' :: (List.intercalate [' '] g).reverse := by simp
  rw [h2]
  have h3 : List.dropWhile Char.isWhitespace
      (' ' :: (List.intercalate [' '] g).reverse) = c' :: rest' := by
    rw [List.dropWhile_cons, if_pos (by decide), hrev, List.dropWhile_cons,
      if_neg (by simp [hc'])]
  rw [h3, ← hrev, List.reverse_reverse]

theorem intercalate_append_of_ne_nil (sep : JStr) (A B : List JStr)
    (hA : A ≠ []) (hB : B ≠ []) :
    List.intercalate sep (A ++ B) =
      List.intercalate sep A ++ sep ++ List.intercalate sep B := by
  induction A with
  | nil => exact absurd rfl hA
  | cons a A' ih =>
    cases A' with
    | nil =>
      rw [intercalate_singleton, List.singleton_append,
        intercalate_cons_of_ne_nil _ _ _ hB]
    | cons b T =>
      rw [List.cons_append, intercalate_cons_of_ne_nil _ _ _ (by simp),
        intercalate_cons_of_ne_nil _ _ _ (by simp), ih (by simp)]
      simp [List.append_assoc]

/-- Core invariant of the wrapping loop on good words: with a nonempty group
of words already on the open line, rejoining the produced lines with spaces
reproduces exactly the pending words, and no produced line is empty. -/
theorem wrapAux_good (N : ℕ) (ws : List JStr) :
    ∀ (g : List JStr), g ≠ [] → (∀ w ∈ g, GoodWord w) → (∀ w ∈ ws, GoodWord w) →
      List.intercalate [' '] (wrapAux N (lineOf g) ws) =
        List.intercalate [' '] (g ++ ws) ∧
      ∀ l ∈ wrapAux N (lineOf g) ws, l ≠ [] := by
  induction ws with
  | nil =>
    intro g hg hgood _
    simp only [wrapAux, List.append_nil]
    rw [jsTrim_lineOf g hg hgood, intercalate_singleton]
    exact ⟨rfl, by
      intro l hl
      simp only [List.mem_singleton] at hl
      rw [hl]
      exact intercalate_ne_nil_of_good g hg hgood⟩
  | cons w ws' ih =>
    intro g hg hgood hws
    have hw : GoodWord w := hws w (by simp)
    have hws' : ∀ u ∈ ws', GoodWord u := fun u hu => hws u (by simp [hu])
    simp only [wrapAux]
    split
    · have hsingle : w ++ [' '] = lineOf [w] := (lineOf_singleton w).symm
      rw [hsingle]
      obtain ⟨iheq, ihne⟩ := ih [w] (by simp) (by simpa using hw) hws'
      constructor
      · rw [intercalate_cons_of_ne_nil _ _ _ (wrapAux_ne_nil _ _ _),
          jsTrim_lineOf g hg hgood, iheq, List.singleton_append,
          intercalate_append_of_ne_nil _ _ _ hg (by simp)]
      · intro l hl
        rcases List.mem_cons.mp hl with hl | hl
        · rw [hl, jsTrim_lineOf g hg hgood]
          exact intercalate_ne_nil_of_good g hg hgood
        · exact ihne l hl
    · have hassoc : lineOf g ++ w ++ [' '] = lineOf (g ++ [w]) := by
        rw [lineOf_append_one, List.append_assoc]
      rw [hassoc]
      have hgood' : ∀ u ∈ g ++ [w], GoodWord u := by
        intro u hu
        rcases List.mem_append.mp hu with hu | hu
        · exact hgood u hu
        · simp only [List.mem_singleton] at hu; rw [hu]; exact hw
      obtain ⟨iheq, ihne⟩ := ih (g ++ [w]) (by simp) hgood' hws'
      refine ⟨?_, ihne⟩
      rw [iheq, List.append_assoc, List.singleton_append]

/-- Claim C3 (amended): for text whose space-separated words are all nonempty
and whitespace-free (printable text with single separating spaces) and whose
first word is no longer than `N`, the lines produced by `wrapTextToFile`,
rejoined with spaces, equal the original text, and no empty line is produced.
(The unamended claim fails when the first word exceeds `N`: see the
counterexample.) -/
theorem wrap_rejoin_eq_text (text : JStr) (N : ℕ)
    (hgood : ∀ w ∈ splitOnSpace text, GoodWord w)
    (hfirst : ((splitOnSpace text).headD []).length ≤ N) :
    List.intercalate [' '] (wrap text N) = text ∧ ∀ l ∈ wrap text N, l ≠ [] := by
  rcases h : splitOnSpace text with _ | ⟨w, rest⟩
  · exact absurd h (splitOnSpace_ne_nil text)
  · rw [h] at hgood hfirst
    simp only [List.headD_cons] at hfirst
    unfold wrap
    rw [h]
    simp only [wrapAux, List.nil_append]
    rw [if_neg (by omega)]
    have hsingle : w ++ [' '] = lineOf [w] := (lineOf_singleton w).symm
    rw [hsingle]
    obtain ⟨iheq, ihne⟩ := wrapAux_good N rest [w] (by simp)
      (by simpa using hgood w (by simp)) (fun u hu => hgood u (by simp [hu]))
    refine ⟨?_, ihne⟩
    rw [iheq, List.singleton_append, ← h, intercalate_splitOnSpace]

/-- Claim C3 counterexample: for the printable text `"aaa"` and
`maxLineChars = 2` (≥ 1), the wrapper emits a spurious empty first line, so
the rejoined lines gain a leading space and do not equal the original text. -/
theorem overlong_first_word_breaks_rejoin :
    List.intercalate [' '] (wrap ['a', 'a', 'a'] 2) ≠ ['a', 'a', 'a'] ∧
      [] ∈ wrap ['a', 'a', 'a'] 2 := by decide

/-- Witness for the amended claim C3 at the text `"hi yo"` with `N = 3`. -/
theorem wrap_rejoin_eq_text_witness :
    List.intercalate [' '] (wrap ['h', 'i', ' ', 'y', 'o'] 3) =
      ['h', 'i', ' ', 'y', 'o'] :=
  (wrap_rejoin_eq_text ['h', 'i', ' ', 'y', 'o'] 3 (by decide) (by decide)).1

theorem max_min_clamp {α : Type} [LinearOrder α] (a b x : α) (hab : a ≤ b) :
    max a (min x b) = min (max x a) b := by
  rw [max_min_distrib_left, max_eq_right hab, max_comm a x]

theorem jsRound_eval (x : ℝ) (n : ℤ) (h1 : (n : ℝ) ≤ x + 1 / 2)
    (h2 : x + 1 / 2 < n + 1) : jsRound x = n := by
  unfold jsRound
  rw [Int.floor_eq_iff]
  exact ⟨h1, h2⟩

theorem jsRound_one_le (x : ℝ) (hx : (1 / 2 : ℝ) ≤ x) : 1 ≤ jsRound x := by
  unfold jsRound
  rw [Int.le_floor]
  push_cast
  linarith

/-- The clamp makes the scale factor at least 0.3 for every style name. -/
theorem scaleFactor_lb (w h : ℕ) (s : String) :
    (0.3 : ℝ) ≤ calculateScaledFontSize w h s := by
  simp only [calculateScaledFontSize]
  split
  · norm_num
  · exact le_max_left _ _

/-- At the reference resolution 1920×1080 the `gif` scale factor is exactly 1. -/
theorem scaleFactor_gif_1080 : calculateScaledFontSize 1920 1080 "gif" = 1 := by
  simp only [calculateScaledFontSize]
  rw [if_neg (by decide)]
  rw [if_neg (by decide : ¬(min (1920 : ℕ) 1080 < 700))]
  have h : ((1920 : ℕ) : ℝ) * ((1080 : ℕ) : ℝ) / ((1920 : ℝ) * 1080) = 1 := by
    norm_num
  rw [h, Real.sqrt_one]
  norm_num

/-- Claim C4: for every geometry with positive width and height, the scale
factor is exactly 1.0 for the `tiktok` (centered-overlay) style; for the `gif`
(top-overlay) style it equals the spec's formula
`sqrt((w*h)/(1920*1080))`, additionally multiplied by `(min(w,h)/700)^1.5`
when `min(w,h) < 700`, clamped to `[0.3, 3.0]`; and it is exactly 1 at
1920×1080. -/
theorem scaleFactor_matches_spec :
    (∀ w h : ℕ, 0 < w → 0 < h → calculateScaledFontSize w h "tiktok" = 1) ∧
    (∀ w h : ℕ, 0 < w → 0 < h →
      calculateScaledFontSize w h "gif" = spec_scaleFactor w h) ∧
    calculateScaledFontSize 1920 1080 "gif" = 1 := by
  refine ⟨?_, ?_, scaleFactor_gif_1080⟩
  · intro w h _ _
    simp only [calculateScaledFontSize, if_pos rfl]
    norm_num
  · intro w h _ _
    simp only [calculateScaledFontSize, spec_scaleFactor]
    rw [if_neg (by decide : ¬("gif" = "tiktok"))]
    exact max_min_clamp (0.3 : ℝ) (3.0 : ℝ) _ (by norm_num)

/-- Witness for claim C4 at the geometry 640×480. -/
theorem scaleFactor_matches_spec_witness :
    calculateScaledFontSize 640 480 "tiktok" = 1 ∧
      calculateScaledFontSize 640 480 "gif" = spec_scaleFactor 640 480 :=
  ⟨scaleFactor_matches_spec.1 640 480 (by decide) (by decide),
    scaleFactor_matches_spec.2.1 640 480 (by decide) (by decide)⟩

/-- Claim C8: for every positive `videoWidth` and positive `fontSize` (at the
default padding 40), `calculateWrapLength` equals the spec formula
`floor((videoWidth - 2*padding) / (0.6*fontSize))` clamped to `[15, 80]`, and
its result always lies within `[15, 80]`. -/
theorem wrapLength_formula_and_bounds (videoWidth fontSize : ℚ)
    (_hw : 0 < videoWidth) (_hf : 0 < fontSize) :
    calculateWrapLength videoWidth fontSize 40 =
      spec_wrapLength videoWidth fontSize 40 ∧
    15 ≤ calculateWrapLength videoWidth fontSize 40 ∧
    calculateWrapLength videoWidth fontSize 40 ≤ 80 := by
  refine ⟨?_, le_max_left _ _, max_le (by norm_num) (min_le_right _ _)⟩
  simp only [calculateWrapLength, spec_wrapLength]
  have hx : (videoWidth - 40 * 2) / (fontSize * 0.6) =
      (videoWidth - 2 * 40) / (0.6 * fontSize) := by ring
  rw [hx]
  exact max_min_clamp (15 : ℤ) (80 : ℤ) _ (by norm_num)

/-- Witness for claim C8 at `videoWidth = 1920`, `fontSize = 124`. -/
theorem wrapLength_formula_and_bounds_witness :
    15 ≤ calculateWrapLength 1920 124 40 ∧ calculateWrapLength 1920 124 40 ≤ 80 :=
  (wrapLength_formula_and_bounds 1920 124 (by norm_num) (by norm_num)).2

/-- Claim C9 (code evaluated at the failing input): `getStyleConfig` with an
unknown style name throws `UnknownStyle` instead of returning null — it
delegates to `getScaledStyle`, which throws; only `getBaseStyleConfig`
returns null. -/
theorem getStyleConfig_unknown_throws :
    getStyleConfig "bogus" 1920 1080 =
      Except.error (CaptionError.unknownStyle "bogus") := rfl

/-- Evaluating `getScaledStyle` for the `gif` style at 1920×1080 (where the
scale factor is 1). -/
theorem getScaledStyle_gif_1080 :
    getScaledStyle "gif" 1920 1080 = Except.ok gifScaled1080 := by
  have hstep : getScaledStyle "gif" 1920 1080 = Except.ok
      { baseFontsize := gifBase.baseFontsize
        fontcolor := gifBase.fontcolor
        bordercolor := gifBase.bordercolor
        backgroundColor := gifBase.backgroundColor
        box := gifBase.box
        boxcolor := gifBase.boxcolor
        x := gifBase.x
        y := gifBase.y
        fontsize := jsRound ((gifBase.baseFontsize : ℝ) *
          calculateScaledFontSize 1920 1080 "gif")
        borderw := max 1 (jsRound ((gifBase.borderw : ℝ) *
          calculateScaledFontSize 1920 1080 "gif" * 0.7))
        line_spacing := jsRound ((gifBase.line_spacing : ℝ) *
          calculateScaledFontSize 1920 1080 "gif")
        textPadding := some (jsRound ((40 : ℝ) *
          calculateScaledFontSize 1920 1080 "gif"))
        boxborderw := none } := rfl
  rw [hstep, scaleFactor_gif_1080]
  have h1 : jsRound ((gifBase.baseFontsize : ℝ) * 1) = 124 := by
    have hx : ((gifBase.baseFontsize : ℤ) : ℝ) * 1 = 124 := by norm_num [gifBase]
    rw [hx]
    exact jsRound_eval _ _ (by norm_num) (by norm_num)
  have h2 : max 1 (jsRound ((gifBase.borderw : ℝ) * 1 * 0.7)) = 4 := by
    have hx : ((gifBase.borderw : ℤ) : ℝ) * 1 * 0.7 = 21 / 5 := by
      norm_num [gifBase]
    rw [hx, jsRound_eval ((21 : ℝ) / 5) 4 (by norm_num) (by norm_num)]
    decide
  have h3 : jsRound ((gifBase.line_spacing : ℝ) * 1) = 30 := by
    have hx : ((gifBase.line_spacing : ℤ) : ℝ) * 1 = 30 := by norm_num [gifBase]
    rw [hx]
    exact jsRound_eval _ _ (by norm_num) (by norm_num)
  have h4 : jsRound ((40 : ℝ) * 1) = 40 := by
    have hx : (40 : ℝ) * 1 = 40 := by norm_num
    rw [hx]
    exact jsRound_eval _ _ (by norm_num) (by norm_num)
  rw [h1, h2, h3, h4]
  rfl

/-- Claim C6: for every style in the catalog and every positive geometry,
`getScaledStyle` succeeds and produces `fontsize = round(base*factor)`,
`borderw = max(1, round(base*factor*0.7))`,
`line_spacing = round(base*factor)`, `textPadding = round(base*factor)` when
the base style defines a (nonzero) padding, `boxborderw =
max(2, round(base*factor*0.8))` when the base style defines a box border,
unset optional fields stay unset, and the resulting font size and stroke
width are both ≥ 1. -/
theorem getScaledStyle_fields_and_floors
    (styleName : String) (b : BaseStyle) (hb : baseStyles styleName = some b)
    (w h : ℕ) (_hw : 0 < w) (_hh : 0 < h) :
    ∃ sc, getScaledStyle styleName w h = Except.ok sc ∧
      sc.fontsize =
        jsRound ((b.baseFontsize : ℝ) * calculateScaledFontSize w h styleName) ∧
      sc.borderw =
        max 1 (jsRound ((b.borderw : ℝ) *
          calculateScaledFontSize w h styleName * 0.7)) ∧
      sc.line_spacing =
        jsRound ((b.line_spacing : ℝ) * calculateScaledFontSize w h styleName) ∧
      (b.textPadding = none → sc.textPadding = none) ∧
      (∀ p : ℤ, b.textPadding = some p → p ≠ 0 →
        sc.textPadding =
          some (jsRound ((p : ℝ) * calculateScaledFontSize w h styleName))) ∧
      (b.boxborderw = none → sc.boxborderw = none) ∧
      (∀ q : ℤ, b.boxborderw = some q → q ≠ 0 →
        sc.boxborderw =
          some (max 2 (jsRound ((q : ℝ) *
            calculateScaledFontSize w h styleName * 0.8)))) ∧
      1 ≤ sc.fontsize ∧ 1 ≤ sc.borderw := by
  have hf03 : (0.3 : ℝ) ≤ calculateScaledFontSize w h styleName :=
    scaleFactor_lb w h styleName
  have hname : styleName = "gif" ∨ styleName = "tiktok" := by
    by_cases h1 : styleName = "gif"
    · exact Or.inl h1
    · by_cases h2 : styleName = "tiktok"
      · exact Or.inr h2
      · unfold baseStyles at hb
        rw [if_neg h1, if_neg h2] at hb
        exact absurd hb (by simp)
  rcases hname with hname | hname <;> subst hname
  · have hbe : b = gifBase := by
      simpa [baseStyles] using hb.symm
    subst hbe
    refine ⟨_, rfl, rfl, rfl, rfl, ?_, ?_, ?_, ?_, ?_, le_max_left _ _⟩
    · intro hp; simp [gifBase] at hp
    · intro p hp hp0
      have hp' : some (40 : ℤ) = some p := hp
      injection hp' with hpe
      subst hpe
      rfl
    · intro _; rfl
    · intro q hq _; simp [gifBase] at hq
    · refine jsRound_one_le _ ?_
      have hbf : ((gifBase.baseFontsize : ℤ) : ℝ) = 124 := by norm_num [gifBase]
      rw [hbf]
      linarith
  · have hbe : b = tiktokBase := by
      simpa [baseStyles] using hb.symm
    subst hbe
    refine ⟨_, rfl, rfl, rfl, rfl, ?_, ?_, ?_, ?_, ?_, le_max_left _ _⟩
    · intro _; rfl
    · intro p hp _; simp [tiktokBase] at hp
    · intro hq; simp [tiktokBase] at hq
    · intro q hq hq0
      have hq' : some (10 : ℤ) = some q := hq
      injection hq' with hqe
      subst hqe
      rfl
    · refine jsRound_one_le _ ?_
      have hbf : ((tiktokBase.baseFontsize : ℤ) : ℝ) = 48 := by
        norm_num [tiktokBase]
      rw [hbf]
      linarith

/-- Witness for claim C6: the `gif` style at 1920×1080 scales to font size
124 ≥ 1 and stroke width 4 ≥ 1. -/
theorem getScaledStyle_fields_and_floors_witness :
    1 ≤ gifScaled1080.fontsize ∧ 1 ≤ gifScaled1080.borderw := by
  obtain ⟨sc, hsc, hprops⟩ := getScaledStyle_fields_and_floors "gif" gifBase
    rfl 1920 1080 (by decide) (by decide)
  rw [getScaledStyle_gif_1080] at hsc
  injection hsc with he
  rw [← he] at hprops
  exact ⟨hprops.2.2.2.2.2.2.2.1, hprops.2.2.2.2.2.2.2.2⟩

theorem strHasPrefix_true (p s : String) (h : p.data <+: s.data) :
    strHasPrefix p s = true := by
  simpa [strHasPrefix, List.isPrefixOf_iff_prefix] using h

theorem prefix_extend (p a b : List Char) (h : p <+: a) : p <+: a ++ b :=
  h.trans (List.prefix_append a b)

theorem not_prefix_head_ne {a b : Char} {l₁ l₂ : List Char} (h : a ≠ b) :
    ¬(a :: l₁ <+: b :: l₂) := by
  rintro ⟨t, ht⟩
  rw [List.cons_append] at ht
  injection ht with h1 _
  exact h h1

theorem isPad_padFilter (tah : ℤ) (bg : String) :
    isPadFilterStr (padFilter tah bg) = true := by
  apply strHasPrefix_true
  simp only [padFilter, String.data_append, List.append_assoc]
  exact prefix_extend _ _ _ (by decide)

theorem isDraw_gifDrawtext (file : String) (sc : ScaledStyle) (tah : ℤ)
    (c : Caption) (ff : Option String) :
    isDrawtextFilterStr (gifDrawtextFilter file sc tah c ff) = true := by
  apply strHasPrefix_true
  simp only [gifDrawtextFilter, gifDrawtextPre, String.data_append,
    List.append_assoc]
  exact prefix_extend _ _ _ (by decide)

theorem isPad_gifDrawtext_false (file : String) (sc : ScaledStyle) (tah : ℤ)
    (c : Caption) (ff : Option String) :
    isPadFilterStr (gifDrawtextFilter file sc tah c ff) = false := by
  rw [isPadFilterStr, strHasPrefix, Bool.eq_false_iff]
  intro hpre
  rw [List.isPrefixOf_iff_prefix] at hpre
  revert hpre
  simp only [gifDrawtextFilter, gifDrawtextPre, String.data_append,
    List.append_assoc, List.cons_append]
  exact not_prefix_head_ne (by decide)

theorem contains_enable (file : String) (sc : ScaledStyle) (tah : ℤ)
    (c : Caption) (ff : Option String) :
    containsStr ("enable='" ++ enableCondition c ++ "'")
      (gifDrawtextFilter file sc tah c ff) = true := by
  simp only [containsStr, decide_eq_true_eq]
  refine ⟨(gifDrawtextPre file sc ++ ("y=" ++ gifTextY tah ++ ":") ++
    gifDrawtextPost sc).data, (fontfileSuffix ff).data, ?_⟩
  simp only [gifDrawtextFilter, String.data_append, List.append_assoc]

theorem contains_y (file : String) (sc : ScaledStyle) (tah : ℤ)
    (c : Caption) (ff : Option String) :
    containsStr ("y=" ++ gifTextY tah)
      (gifDrawtextFilter file sc tah c ff) = true := by
  simp only [containsStr, decide_eq_true_eq]
  refine ⟨(gifDrawtextPre file sc).data, (":" ++ gifDrawtextPost sc ++
    ("enable='" ++ enableCondition c ++ "'") ++ fontfileSuffix ff).data, ?_⟩
  simp only [gifDrawtextFilter, String.data_append, List.append_assoc]

theorem mkCaptionFiles_length (n : ℕ) (cs : List Caption) :
    (mkCaptionFiles n cs).length = cs.length := by
  induction cs generalizing n with
  | nil => simp [mkCaptionFiles]
  | cons c cs ih => simp [mkCaptionFiles, ih]

theorem mkCaptionFiles_getElem? (cs : List Caption) :
    ∀ (n i : ℕ), (mkCaptionFiles n cs)[i]? =
      cs[i]?.map (fun c => (c, tmpPath (n + i))) := by
  induction cs with
  | nil => intro n i; simp [mkCaptionFiles]
  | cons c cs ih =>
    intro n i
    cases i with
    | zero => simp [mkCaptionFiles]
    | succ j =>
      have harith : n + 1 + j = n + (j + 1) := by omega
      simp only [mkCaptionFiles, List.getElem?_cons_succ, ih (n + 1) j, harith]

/-- Claim C5: for every nonempty multi-caption gif synthesis, the produced
filter sequence has exactly one canvas-expand (`pad`) primitive, it is the
head and hence precedes every text-draw primitive, every other element is a
text-draw primitive (one per caption, in input order, referencing that
caption's temp resource), each text-draw is gated by
`enable='between(t,startTime,endTime)'` for its own caption, and all share
the same vertical-centering expression against the shared band. -/
theorem multiGif_filter_sequence (captions : List Caption) (sc : ScaledStyle)
    (wrapLen : ℕ) (ff : Option String) (_hne : captions ≠ []) :
    (addMultipleGifStyleCaptionsRun captions sc wrapLen ff).filters.length =
      captions.length + 1 ∧
    ((addMultipleGifStyleCaptionsRun captions sc wrapLen ff).filters.filter
      isPadFilterStr).length = 1 ∧
    (addMultipleGifStyleCaptionsRun captions sc wrapLen ff).filters.head? =
      some (padFilter (textAreaHeightOf captions sc wrapLen)
        (sc.backgroundColor.getD "undefined")) ∧
    isPadFilterStr (padFilter (textAreaHeightOf captions sc wrapLen)
      (sc.backgroundColor.getD "undefined")) = true ∧
    (∀ f ∈ (addMultipleGifStyleCaptionsRun captions sc wrapLen ff).filters.tail,
      isDrawtextFilterStr f = true ∧ isPadFilterStr f = false) ∧
    (addMultipleGifStyleCaptionsRun captions sc wrapLen ff).filters.tail.length =
      captions.length ∧
    (∀ (i : ℕ) (c : Caption), captions[i]? = some c →
      (addMultipleGifStyleCaptionsRun captions sc wrapLen ff).filters.tail[i]? =
        some (gifDrawtextFilter (tmpPath i) sc
          (textAreaHeightOf captions sc wrapLen) c ff) ∧
      containsStr ("enable='" ++ enableCondition c ++ "'")
        (gifDrawtextFilter (tmpPath i) sc
          (textAreaHeightOf captions sc wrapLen) c ff) = true ∧
      containsStr ("y=" ++ gifTextY (textAreaHeightOf captions sc wrapLen))
        (gifDrawtextFilter (tmpPath i) sc
          (textAreaHeightOf captions sc wrapLen) c ff) = true) := by
  refine ⟨?_, ?_, rfl, isPad_padFilter _ _, ?_, ?_, ?_⟩
  · simp [addMultipleGifStyleCaptionsRun, mkCaptionFiles_length]
  · simp only [addMultipleGifStyleCaptionsRun, List.filter_cons,
      isPad_padFilter, if_pos]
    have hnil : (List.filter isPadFilterStr ((mkCaptionFiles 0 captions).map
        fun cf => gifDrawtextFilter cf.2 sc
          (textAreaHeightOf captions sc wrapLen) cf.1 ff)) = [] := by
      rw [List.filter_eq_nil_iff]
      rintro f hf
      obtain ⟨cf, -, rfl⟩ := List.mem_map.mp hf
      simp [isPad_gifDrawtext_false]
    rw [hnil]
    rfl
  · intro f hf
    simp only [addMultipleGifStyleCaptionsRun, List.tail_cons] at hf
    obtain ⟨cf, -, rfl⟩ := List.mem_map.mp hf
    exact ⟨isDraw_gifDrawtext _ _ _ _ _, isPad_gifDrawtext_false _ _ _ _ _⟩
  · simp [addMultipleGifStyleCaptionsRun, mkCaptionFiles_length]
  · intro i c hc
    refine ⟨?_, contains_enable _ _ _ _ _, contains_y _ _ _ _ _⟩
    simp only [addMultipleGifStyleCaptionsRun, List.tail_cons,
      List.getElem?_map, mkCaptionFiles_getElem?, hc, Nat.zero_add,
      Option.map_map, Option.map_some]
    rfl

/-- Witness for claim C5 with one caption. -/
theorem multiGif_filter_sequence_witness :
    ((addMultipleGifStyleCaptionsRun [⟨['h', 'i'], 0, 3⟩] gifScaled1080 30
      none).filters.filter isPadFilterStr).length = 1 :=
  (multiGif_filter_sequence [⟨['h', 'i'], 0, 3⟩] gifScaled1080 30 none
    (by simp)).2.1

/-- Claim C2 counterexample: a batch whose only caption has
`endTime == startTime` (here 5 and 5, with nonempty text) is NOT rejected:
the request is accepted and one temporary text resource is created (and the
renderer invoked with its filters), because neither the CLI validation loop
nor `addMultipleCaptions` compares `endTime` with `startTime`. -/
theorem endTime_eq_startTime_batch_not_rejected :
    (cliAddMultipleGif [⟨['h', 'i'], 5, 5⟩] gifScaled1080 30).toOption.isSome =
      true ∧
    (cliAddMultipleGif [⟨['h', 'i'], 5, 5⟩] gifScaled1080 30).toOption.map
      (fun r => r.resources.length) = some 1 := by
  constructor
  · decide
  · decide

/-- Claim C2 (amended): a caption list containing an entry with empty text
fails the whole batch with `InvalidCaption` before any temporary text
resource is created and before the renderer is invoked; entries with
`endTime ≤ startTime` are not rejected. -/
theorem emptyText_batch_rejected_before_resources (captions : List Caption)
    (sc : ScaledStyle) (wrapLen : ℕ) (c : Caption)
    (hc : c ∈ captions) (ht : c.text = []) :
    cliAddMultipleGif captions sc wrapLen =
      Except.error CliError.invalidCaption := by
  have hv : validateCaptionsCli captions = false := by
    rw [validateCaptionsCli, Bool.eq_false_iff]
    intro hall
    rw [List.all_eq_true] at hall
    have hval := hall c hc
    rw [captionEntryValid, ht] at hval
    simp at hval
  simp [cliAddMultipleGif, hv]

/-- Witness for the amended claim C2: a batch with an empty-text entry. -/
theorem emptyText_batch_rejected_witness :
    cliAddMultipleGif [⟨[], 0, 3⟩] gifScaled1080 30 =
      Except.error CliError.invalidCaption :=
  emptyText_batch_rejected_before_resources [⟨[], 0, 3⟩] gifScaled1080 30
    ⟨[], 0, 3⟩ (by simp) rfl

/-- Claim C7: for every request (single- or multi-caption; the gif and tiktok
handlers are identical), a release of every temporary caption text file is
attempted on both the success and the failure path of the render, a failed
delete only logs a warning, and the request's outcome is fully determined by
the render result — it never depends on whether deletion succeeded. -/
theorem temp_cleanup_on_all_paths (out cf : String) (files : List String)
    (err : Option String) (df df' : String → Bool) :
    releaseAttempted (singleCaptionRender out cf err df) cf ∧
    (singleCaptionRender out cf err df).outcome =
      (singleCaptionRender out cf err df').outcome ∧
    (∀ f ∈ files, releaseAttempted (multiCaptionsRender out files err df) f) ∧
    (multiCaptionsRender out files err df).outcome =
      (multiCaptionsRender out files err df').outcome ∧
    (singleCaptionRender out cf err df).outcome =
      (match err with
        | none => Except.ok out
        | some e => Except.error e) := by
  refine ⟨?_, ?_, ?_, ?_, ?_⟩
  · have hev : (singleCaptionRender out cf err df).events =
        [RenderEvent.createdTemp cf, RenderEvent.renderInvoked,
          cleanupTempFile df cf] := by
      cases err <;> rfl
    rw [releaseAttempted, hev]
    by_cases h : df cf = true
    · exact Or.inr (by simp [cleanupTempFile, h])
    · exact Or.inl (by simp [cleanupTempFile, h])
  · cases err <;> rfl
  · intro f hf
    have hev : (multiCaptionsRender out files err df).events =
        (files.map RenderEvent.createdTemp ++ [RenderEvent.renderInvoked]) ++
          files.map (cleanupTempFile df) := by
      cases err <;> rfl
    rw [releaseAttempted, hev]
    by_cases h : df f = true
    · refine Or.inr (List.mem_append_right _ ?_)
      exact List.mem_map.mpr ⟨f, hf, by simp [cleanupTempFile, h]⟩
    · refine Or.inl (List.mem_append_right _ ?_)
      exact List.mem_map.mpr ⟨f, hf, by simp [cleanupTempFile, h]⟩
  · cases err <;> rfl
  · cases err <;> rfl

/-- Witness for claim C7: a failing render with a failing delete still
attempts the release, as does a successful render with a working delete. -/
theorem temp_cleanup_on_all_paths_witness :
    releaseAttempted (multiCaptionsRender "out.mp4" ["a.txt"] (some "boom")
      (fun _ => true)) "a.txt" ∧
    releaseAttempted (singleCaptionRender "out.mp4" "c.txt" none
      (fun _ => false)) "c.txt" :=
  ⟨(temp_cleanup_on_all_paths "out.mp4" "c.txt" ["a.txt"] (some "boom")
      (fun _ => true) (fun _ => false)).2.2.1 "a.txt" (by simp),
    (temp_cleanup_on_all_paths "out.mp4" "c.txt" [] none
      (fun _ => false) (fun _ => false)).1⟩

/-- Claim C10: in `addCaption`'s style paths the trim parameters are applied
only when truthy: a duration of 0 is ignored (the command equals one built
with no duration at all), and a `startTime ≤ 0` causes no input seek. -/
theorem zero_duration_ignored (inputPath outputPath : String)
    (videoFilters : List String) (startTime : ℚ) (d : Option ℚ) :
    buildCaptionCommand inputPath outputPath videoFilters startTime (some 0) =
      buildCaptionCommand inputPath outputPath videoFilters startTime none ∧
    (startTime ≤ 0 →
      (buildCaptionCommand inputPath outputPath videoFilters startTime
        d).seekInput = none) := by
  constructor
  · simp [buildCaptionCommand, jsTruthyNum]
  · intro hst
    have hns : ¬(0 < startTime) := not_lt.mpr hst
    simp only [buildCaptionCommand, if_neg hns]
    split <;> rfl

/-- Witness for claim C10 at `startTime = 0` with a nonzero duration. -/
theorem zero_duration_ignored_witness :
    (buildCaptionCommand "in.mp4" "out.mp4" [] 0 (some 2)).seekInput = none :=
  (zero_duration_ignored "in.mp4" "out.mp4" [] 0 (some 2)).2 (by norm_num)

end CaptionIt
